import Mathlib

/-!
Shallow embedding of the SuikaPool game core (src/ts/script.ts).

Numbers: the JavaScript `number` values are modelled as exact rationals (ℚ).
The decimal constants of the source (`0.98`, `0.05`, `0.7`, `0.95`, `0.1`,
`0.5`) are written as the fractions they denote.

`Math.sqrt` is modelled by an explicit parameter `sq : ℚ → ℚ`: every theorem
that depends on the value of a square root carries hypotheses stating that
the relevant `sq` output is the true square root of its input
(`d * d = input` and `0 ≤ d`).  `Math.cos (Math.atan2 dy dx)` and
`Math.sin (Math.atan2 dy dx)` are expanded to `dx / d` and `dy / d`
(`1` and `0` when `d = 0`, matching `atan2 0 0 = 0`), which is the exact
value of those compositions when `d` is the hypotenuse of `(dx, dy)`.

`Math.PI` is modelled by an explicit parameter `piV : ℚ`; claims about the
fill gauge hold for every non-negative value of that parameter, in
particular for every rational approximation of π.

`Math.random` draws are modelled as parameters of the transition relation,
constrained exactly as `Math.floor (Math.random () * 5)` is (`idx < 5`).
-/

namespace SuikaPool

/-- Embedding of the `FruitType` interface: one tier of the catalog. -/
structure FruitType where
  rank : ℕ
  radius : ℚ
  color : String
  name : String
  score : ℕ
deriving Repr, DecidableEq

/-- Embedding of the `GameFruit` interface: an active (or pending) body. -/
structure GameFruit where
  rank : ℕ
  radius : ℚ
  color : String
  name : String
  score : ℕ
  x : ℚ
  y : ℚ
  vx : ℚ
  vy : ℚ
  typeIndex : ℕ
  angle : ℚ
deriving Repr, DecidableEq

/-- The `fruitTypes` catalog, copied verbatim from the source. -/
def fruitTypes : List FruitType := [
  ⟨0, 15, "#8A2BE2", "Cherry", 1⟩,
  ⟨1, 20, "#B11D97", "Strawberry", 2⟩,
  ⟨2, 28, "#D80E4B", "Grape", 3⟩,
  ⟨3, 35, "#FF0000", "Dekopon", 4⟩,
  ⟨4, 45, "#FF5500", "Persimmon", 5⟩,
  ⟨5, 55, "#FFAA00", "Apple", 6⟩,
  ⟨6, 65, "#FFFF00", "Pear", 7⟩,
  ⟨7, 75, "#C8E208", "Peach", 8⟩,
  ⟨8, 85, "#90C511", "Pineapple", 9⟩,
  ⟨9, 100, "#59A819", "Melon", 10⟩,
  ⟨10, 120, "#228B22", "Watermelon", 11⟩]

/-- Total lookup into the catalog (`fruitTypes[n]`); in the source every
access is guarded so the out-of-range default is never reached. -/
def fruitTypeAt (n : ℕ) : FruitType :=
  fruitTypes.getD n ⟨0, 0, "", "", 0⟩

/-- Embedding of `isOverlapping(x, y, radius)`.  The source compares
`Math.sqrt (dx*dx + dy*dy) < radius + fruit.radius`; since the square root
is non-negative this holds exactly when the sum of radii is positive and
the squared distance is below the squared sum, which is what we compute
(sqrt-free, hence decidable). -/
def isOverlapping (fruits : List GameFruit) (x y radius : ℚ) : Bool :=
  fruits.any fun fruit =>
    decide (0 < radius + fruit.radius ∧
      (x - fruit.x) * (x - fruit.x) + (y - fruit.y) * (y - fruit.y) <
        (radius + fruit.radius) * (radius + fruit.radius))

/-- Embedding of the `while (true)` placement-search loop of
`prepareNextFruit`, with an explicit fuel argument (the loop itself always
terminates; see the termination theorem).  `k` counts the current
`searchOffset = 5 * k`; the loop starts with `k = 1`.  `none` means the
fuel ran out before the loop exited. -/
def searchAux (w y radius : ℚ) (fruits : List GameFruit) : ℕ → ℕ → Option ℚ
  | 0, _ => none
  | fuel + 1, k =>
    let x := w / 2
    let rightX := x + 5 * (k : ℚ)
    if rightX + radius < w ∧ isOverlapping fruits rightX y radius = false then
      some rightX
    else
      let leftX := x - 5 * (k : ℚ)
      if leftX - radius > 0 ∧ isOverlapping fruits leftX y radius = false then
        some leftX
      else if x - 5 * ((k : ℚ) + 1) < 0 ∧ x + 5 * ((k : ℚ) + 1) > w then
        some x
      else searchAux w y radius fruits fuel (k + 1)

/-- Fuel that is always sufficient for `searchAux` when `0 < w`. -/
def searchFuel (w : ℚ) : ℕ := (⌈w⌉).toNat + 1

/-- The horizontal placement computed by `prepareNextFruit`: start at
`width / 2`; search only when the centered circle overlaps; if the fuel of
the embedded loop ran out (which cannot happen, see the termination
theorem) fall back to the center just as the loop's own exit does. -/
def placeFruitX (w h radius : ℚ) (fruits : List GameFruit) : ℚ :=
  let y := h - 50
  let x := w / 2
  if isOverlapping fruits x y radius then
    match searchAux w y radius fruits (searchFuel w) 1 with
    | some x2 => x2
    | none => x
  else x

/-- The pending body built at the end of `prepareNextFruit` from the queued
tier: spread of the catalog entry, computed position, zero velocity, zero
rotation angle. -/
def mkPendingFruit (w h : ℚ) (tIdx : ℕ) (fruits : List GameFruit) : GameFruit :=
  let ft := fruitTypeAt tIdx
  { rank := ft.rank, radius := ft.radius, color := ft.color, name := ft.name,
    score := ft.score,
    x := placeFruitX w h ft.radius fruits, y := h - 50,
    vx := 0, vy := 0, typeIndex := tIdx, angle := 0 }

/-- Phase A of `update` for one body: friction, integration, rotation
update, and the four wall checks (x axis first, each axis an
`if / else if`). -/
def stepFruit (w h : ℚ) (fruit : GameFruit) : GameFruit :=
  let vx := fruit.vx * (49/50)
  let vy := fruit.vy * (49/50)
  let x := fruit.x + vx
  let y := fruit.y + vy
  let angle := fruit.angle + vx * (1/20)
  let xvx : ℚ × ℚ :=
    if x - fruit.radius < 0 then (fruit.radius, vx * (-(7/10)))
    else if x + fruit.radius > w then (w - fruit.radius, vx * (-(7/10)))
    else (x, vx)
  let yvy : ℚ × ℚ :=
    if y - fruit.radius < 0 then (fruit.radius, vy * (-(7/10)))
    else if y + fruit.radius > h then (h - fruit.radius, vy * (-(7/10)))
    else (y, vy)
  { fruit with x := xvx.1, vx := xvx.2, y := yvy.1, vy := yvy.2, angle := angle }

/-- The body of one inner-loop iteration of the pairwise scan of `update`,
acting on the pair at positions `i < j`: overlap test, positional
separation, elastic velocity response, then the merge check.  The third
component reports whether a merge happened (the source's `break`). -/
def collideAt (sq : ℚ → ℚ) (fruits : List GameFruit) (score : ℕ) (i j : ℕ) :
    List GameFruit × ℕ × Bool :=
  match fruits[i]?, fruits[j]? with
  | some f1, some f2 =>
    let dx := f2.x - f1.x
    let dy := f2.y - f1.y
    let distance := sq (dx * dx + dy * dy)
    let minDistance := f1.radius + f2.radius
    if distance < minDistance then
      let overlap := minDistance - distance
      let tx := (if distance = 0 then 1 else dx / distance) * overlap
      let ty := (if distance = 0 then 0 else dy / distance) * overlap
      let f1a := { f1 with x := f1.x - tx / 2, y := f1.y - ty / 2 }
      let f2a := { f2 with x := f2.x + tx / 2, y := f2.y + ty / 2 }
      let m1 := f1.radius
      let m2 := f2.radius
      let f1b := { f1a with
        vx := (f1.vx * (m1 - m2) + 2 * m2 * f2.vx) / (m1 + m2) * (19/20),
        vy := (f1.vy * (m1 - m2) + 2 * m2 * f2.vy) / (m1 + m2) * (19/20) }
      let f2b := { f2a with
        vx := (f2.vx * (m2 - m1) + 2 * m1 * f1.vx) / (m1 + m2) * (19/20),
        vy := (f2.vy * (m2 - m1) + 2 * m1 * f1.vy) / (m1 + m2) * (19/20) }
      if f1.typeIndex = f2.typeIndex ∧ f1.typeIndex < fruitTypes.length - 1 then
        let newTypeIndex := f1.typeIndex + 1
        let nft := fruitTypeAt newTypeIndex
        let newMass := nft.radius
        let newFruit : GameFruit :=
          { rank := nft.rank, radius := nft.radius, color := nft.color,
            name := nft.name, score := nft.score,
            x := (f1a.x + f2a.x) / 2, y := (f1a.y + f2a.y) / 2,
            vx := (m1 * f1b.vx + m2 * f2b.vx) / newMass * (1/2),
            vy := (m1 * f1b.vy + m2 * f2b.vy) / newMass * (1/2),
            typeIndex := newTypeIndex, angle := 0 }
        (((fruits.eraseIdx j).eraseIdx i).concat newFruit, score + nft.score, true)
      else
        ((fruits.set i f1b).set j f2b, score, false)
    else (fruits, score, false)
  | _, _ => (fruits, score, false)

/-- The inner `for (let j = i + 1; ...)` loop of the pairwise scan; `true`
in the result signals that a merge broke out of the loop.  The fuel always
suffices (the list length never grows during the inner loop); running out
of fuel returns the same value as the loop's own exit test. -/
def innerLoop (sq : ℚ → ℚ) (i : ℕ) :
    ℕ → ℕ → List GameFruit → ℕ → List GameFruit × ℕ × Bool
  | 0, _, fruits, score => (fruits, score, false)
  | fuel + 1, j, fruits, score =>
    if j < fruits.length then
      let r := collideAt sq fruits score i j
      if r.2.2 then r
      else innerLoop sq i fuel (j + 1) r.1 r.2.1
    else (fruits, score, false)

/-- The outer `for (let i = 0; ...)` loop of the pairwise scan.  As in the
source, `i` advances after a merge (`break` only leaves the inner loop)
and the loop bound `fruits.length` is re-read on every iteration. -/
def outerLoop (sq : ℚ → ℚ) : ℕ → ℕ → List GameFruit → ℕ → List GameFruit × ℕ
  | 0, _, fruits, score => (fruits, score)
  | fuel + 1, i, fruits, score =>
    if i < fruits.length then
      let r := innerLoop sq i fruits.length (i + 1) fruits score
      outerLoop sq fuel (i + 1) r.1 r.2.1
    else (fruits, score)

/-- Embedding of `update()`: Phase A over every body, then the pairwise
collision-and-merge scan.  Returns the new active collection and score. -/
def update (sq : ℚ → ℚ) (w h : ℚ) (fruits : List GameFruit) (score : ℕ) :
    List GameFruit × ℕ :=
  let moved := fruits.map (stepFruit w h)
  outerLoop sq moved.length 0 moved score

/-- Embedding of `calculateFillPercentage()`; `piV` stands for `Math.PI`. -/
def calculateFillPercentage (piV w h : ℚ) (fruits : List GameFruit) : ℚ :=
  let totalCanvasArea := w * h
  let occupiedArea := fruits.foldl (fun acc f => acc + piV * f.radius * f.radius) 0
  min (occupiedArea / totalCanvasArea * 100) 100

/-- The mutable game state touched by the loop, launch and spawn actions
(`score`, `gameOver`, `fruits`, `fruitToLaunch`, `fruitInQueue`; the queued
fruit is represented by its tier index). -/
structure GameState where
  score : ℕ
  gameOver : Bool
  fruits : List GameFruit
  fruitToLaunch : Option GameFruit
  queuedIndex : ℕ
deriving Repr, DecidableEq

/-- The game-over check at the end of `drawFillGauge()`: flip `gameOver`
when the fill percentage is at least 90 and the game is not already over. -/
def checkGameOverFlag (piV w h : ℚ) (s : GameState) : GameState :=
  if 90 ≤ calculateFillPercentage piV w h s.fruits ∧ s.gameOver = false then
    { s with gameOver := true }
  else s

/-- One `gameLoop()` frame: return immediately when the game is over,
otherwise run `update()` and then the gauge's game-over check (reached via
`draw()`).  The boolean reports whether `update()` was executed. -/
def gameLoopFrame (sq : ℚ → ℚ) (piV w h : ℚ) (s : GameState) : GameState × Bool :=
  if s.gameOver then (s, false)
  else
    let r := update sq w h s.fruits s.score
    let s2 := { s with fruits := r.1, score := r.2 }
    (checkGameOverFlag piV w h s2, true)

/-- The velocity assignment of the `mousedown` launch handler; `(ax, ay)`
is the aim point (`mousePos`) and `d` stands for
`Math.sqrt (dx*dx + dy*dy)`. -/
def launchBody (b : GameFruit) (ax ay d : ℚ) : GameFruit :=
  let dx := ax - b.x
  let dy := ay - b.y
  let speed := min (d * (1/10)) 30
  { b with vx := (if d = 0 then 1 else dx / d) * speed,
           vy := (if d = 0 then 0 else dy / d) * speed }

/-- Embedding of the `mousedown` handler: if a pending body exists, give it
its launch velocity, append it to the active collection, empty the pending
slot and schedule the next spawn (the boolean reports whether the
`setTimeout (prepareNextFruit, 1000)` spawn was scheduled); otherwise do
nothing at all. -/
def mousedown (s : GameState) (ax ay d : ℚ) : GameState × Bool :=
  match s.fruitToLaunch with
  | none => (s, false)
  | some b =>
    ({ s with fruits := s.fruits ++ [launchBody b ax ay d],
              fruitToLaunch := none }, true)

/-- The state produced by `init()`: zero score, game not over, empty
collection, then `fruitInQueue := generateRandomFruit()` (draw `idx0`) and
`prepareNextFruit()` (which consumes `idx0` for the pending body and draws
`idx1` for the queue). -/
def initState (w h : ℚ) (idx0 idx1 : ℕ) : GameState :=
  { score := 0, gameOver := false, fruits := [],
    fruitToLaunch := some (mkPendingFruit w h idx0 []),
    queuedIndex := idx1 }

/-- The transitions the running game performs on its state: an animation
frame, a launch click, and the delayed `prepareNextFruit` spawn.  Random
draws appear as constrained parameters (`idx < 5`, from
`Math.floor (Math.random () * 5)`); the square root used by a launch is a
constrained parameter `d`. -/
inductive Trans (sq : ℚ → ℚ) (piV w h : ℚ) : GameState → GameState → Prop
  | frame (s : GameState) : Trans sq piV w h s (gameLoopFrame sq piV w h s).1
  | launchT (s : GameState) (b : GameFruit) (ax ay d : ℚ)
      (hb : s.fruitToLaunch = some b)
      (hd : d * d = (ax - b.x) * (ax - b.x) + (ay - b.y) * (ay - b.y))
      (hdnn : 0 ≤ d) :
      Trans sq piV w h s (mousedown s ax ay d).1
  | spawnT (s : GameState) (idx : ℕ) (hidx : idx < 5)
      (hp : s.fruitToLaunch = none) :
      Trans sq piV w h s
        { s with fruitToLaunch :=
                   some (mkPendingFruit w h s.queuedIndex s.fruits),
                 queuedIndex := idx }

/-- States reachable from `init()` through game transitions. -/
inductive Reachable (sq : ℚ → ℚ) (piV w h : ℚ) : GameState → Prop
  | init (idx0 idx1 : ℕ) (h0 : idx0 < 5) (h1 : idx1 < 5) :
      Reachable sq piV w h (initState w h idx0 idx1)
  | step (s s2 : GameState) :
      Reachable sq piV w h s → Trans sq piV w h s s2 → Reachable sq piV w h s2

/-! ## C8: launching with no pending body is a silent no-op -/

/-- C8: if the pending slot is empty, the launch trigger leaves the whole
state (active collection, score, game-over flag, pending slot, queued tier)
unchanged and schedules no spawn; the handler is a total function, so no
error is raised. -/
theorem C8_launch_noop (s : GameState) (ax ay d : ℚ)
    (h : s.fruitToLaunch = none) :
    mousedown s ax ay d = (s, false) := by
  simp [mousedown, h]

def c8state : GameState :=
  { score := 7, gameOver := false, fruits := [], fruitToLaunch := none,
    queuedIndex := 3 }

/-- Witness for C8 at a concrete state with an empty pending slot. -/
theorem C8_launch_noop_witness : mousedown c8state 120 80 5 = (c8state, false) :=
  C8_launch_noop c8state 120 80 5 rfl

/-! ## C2: the game-over transition is edge-triggered and terminal -/

/-- C2: (1) once `gameOver` is set, a frame is a complete no-op and runs no
`update` (so the flag cannot re-fire and no further simulation steps
execute); (2) in a frame that starts with `gameOver = false` and whose
post-`update` occupancy is at least 90, the flag becomes true; (3) the flag
stays true on every subsequent frame until an explicit reset. -/
theorem C2_gameover_edge (sq : ℚ → ℚ) (piV w h : ℚ) :
    (∀ s : GameState, s.gameOver = true →
      gameLoopFrame sq piV w h s = (s, false)) ∧
    (∀ s : GameState, s.gameOver = false →
      90 ≤ calculateFillPercentage piV w h (update sq w h s.fruits s.score).1 →
      (gameLoopFrame sq piV w h s).1.gameOver = true ∧
      (gameLoopFrame sq piV w h s).2 = true) ∧
    (∀ s : GameState, s.gameOver = true →
      (gameLoopFrame sq piV w h s).1.gameOver = true) := by
  refine ⟨fun s hs => ?_, fun s hs hfill => ?_, fun s hs => ?_⟩
  · simp [gameLoopFrame, hs]
  · constructor
    · simp [gameLoopFrame, hs, checkGameOverFlag, hfill]
    · simp [gameLoopFrame, hs]
  · simp [gameLoopFrame, hs]

def c2over : GameState :=
  { score := 5, gameOver := true, fruits := [], fruitToLaunch := none,
    queuedIndex := 0 }

def c2live : GameState :=
  { score := 0, gameOver := false,
    fruits := [⟨0, 15, "#8A2BE2", "Cherry", 1, 8, 8, 0, 0, 0, 0⟩],
    fruitToLaunch := none, queuedIndex := 0 }

/-- Witness for C2: a finished session is left untouched by a frame, and a
live session whose single body fills a 16×16 arena past 90% flips the flag
in that frame. -/
theorem C2_gameover_edge_witness :
    gameLoopFrame (fun _ => 0) 3 16 16 c2over = (c2over, false) ∧
    (gameLoopFrame (fun _ => 0) 3 16 16 c2live).1.gameOver = true ∧
    (gameLoopFrame (fun _ => 0) 3 16 16 c2over).1.gameOver = true :=
  ⟨(C2_gameover_edge (fun _ => 0) 3 16 16).1 c2over rfl,
   ((C2_gameover_edge (fun _ => 0) 3 16 16).2.1 c2live rfl (by
      norm_num [c2live, calculateFillPercentage, update, outerLoop, innerLoop,
        stepFruit])).1,
   (C2_gameover_edge (fun _ => 0) 3 16 16).2.2 c2over rfl⟩

/-! ## C3: launch velocity and the hard speed cap -/

/-- C3: with a pending body, a launch appends it to the active collection
with velocity `(cos θ * s, sin θ * s)` — `cos θ = dx / d`, `sin θ = dy / d`
for the distance `d` to the aim point (`1` and `0` when `d = 0`) — where
`s = min (0.1 * d) 30`, then empties the pending slot; the squared speed
never exceeds `30 ^ 2` for any aim point. -/
theorem C3_launch_velocity (s : GameState) (ax ay d : ℚ) (b : GameFruit)
    (hb : s.fruitToLaunch = some b)
    (hd2 : d * d = (ax - b.x) * (ax - b.x) + (ay - b.y) * (ay - b.y))
    (hdnn : 0 ≤ d) :
    (mousedown s ax ay d).1.fruits = s.fruits ++ [launchBody b ax ay d] ∧
    (mousedown s ax ay d).1.fruitToLaunch = none ∧
    (launchBody b ax ay d).vx
      = (if d = 0 then 1 else (ax - b.x) / d) * min (d * (1/10)) 30 ∧
    (launchBody b ax ay d).vy
      = (if d = 0 then 0 else (ay - b.y) / d) * min (d * (1/10)) 30 ∧
    (launchBody b ax ay d).vx ^ 2 + (launchBody b ax ay d).vy ^ 2 ≤ 30 ^ 2 := by
  refine ⟨by simp [mousedown, hb], by simp [mousedown, hb], rfl, rfl, ?_⟩
  by_cases h0 : d = 0
  · subst h0
    simp [launchBody]
  · have hvx : (launchBody b ax ay d).vx
        = (ax - b.x) / d * min (d * (1/10)) 30 := by
      simp [launchBody, h0]
    have hvy : (launchBody b ax ay d).vy
        = (ay - b.y) / d * min (d * (1/10)) 30 := by
      simp [launchBody, h0]
    have hsp0 : 0 ≤ min (d * (1/10)) 30 := le_min (by linarith) (by norm_num)
    have hsp30 : min (d * (1/10)) 30 ≤ 30 := min_le_right _ _
    obtain ⟨sp, hsp⟩ : ∃ sp, min (d * (1/10)) 30 = sp := ⟨_, rfl⟩
    have key : ((ax - b.x) / d * sp) ^ 2 + ((ay - b.y) / d * sp) ^ 2
        = sp ^ 2 := by
      field_simp
      linear_combination sp ^ 2 * hd2.symm
    rw [hvx, hvy, hsp, key]
    rw [hsp] at hsp0 hsp30
    nlinarith [hsp0, hsp30]

def c3state : GameState :=
  { score := 0, gameOver := false, fruits := [],
    fruitToLaunch := some ⟨0, 15, "#8A2BE2", "Cherry", 1, 200, 350, 0, 0, 0, 0⟩,
    queuedIndex := 1 }

/-- Witness for C3: aiming straight up from `(200, 350)` to `(200, 100)`
(distance 250). -/
theorem C3_launch_velocity_witness :
    (mousedown c3state 200 100 250).1.fruits
      = c3state.fruits
        ++ [launchBody ⟨0, 15, "#8A2BE2", "Cherry", 1, 200, 350, 0, 0, 0, 0⟩ 200 100 250] ∧
    (mousedown c3state 200 100 250).1.fruitToLaunch = none ∧
    (launchBody ⟨0, 15, "#8A2BE2", "Cherry", 1, 200, 350, 0, 0, 0, 0⟩ 200 100 250).vx
      = (if (250:ℚ) = 0 then 1 else (200 - 200) / 250) * min (250 * (1/10)) 30 ∧
    (launchBody ⟨0, 15, "#8A2BE2", "Cherry", 1, 200, 350, 0, 0, 0, 0⟩ 200 100 250).vy
      = (if (250:ℚ) = 0 then 0 else (100 - 350) / 250) * min (250 * (1/10)) 30 ∧
    (launchBody ⟨0, 15, "#8A2BE2", "Cherry", 1, 200, 350, 0, 0, 0, 0⟩ 200 100 250).vx ^ 2
      + (launchBody ⟨0, 15, "#8A2BE2", "Cherry", 1, 200, 350, 0, 0, 0, 0⟩ 200 100 250).vy ^ 2
      ≤ 30 ^ 2 :=
  C3_launch_velocity c3state 200 100 250 _ rfl (by norm_num) (by norm_num)

/-! ## C9: the placement-search loop terminates -/

/-- Once the fuel dominates the number of remaining offsets, the embedded
search loop exits (by acceptance or by its own fallback test). -/
lemma searchAux_isSome (w y radius : ℚ) (fruits : List GameFruit) :
    ∀ (fuel k : ℕ), w / 2 < 5 * ((k : ℚ) + 1 + fuel) →
      (searchAux w y radius fruits (fuel + 1) k).isSome = true := by
  intro fuel
  induction fuel with
  | zero =>
    intro k hk
    unfold searchAux
    dsimp only
    split_ifs with h1 h2 h3
    · rfl
    · rfl
    · rfl
    · push_cast at hk
      exact absurd ⟨by linarith, by linarith⟩ h3
  | succ fuel ih =>
    intro k hk
    unfold searchAux
    dsimp only
    split_ifs with h1 h2 h3
    · rfl
    · rfl
    · rfl
    · exact ih (k + 1) (by push_cast at hk ⊢; linarith)

/-- C9: for every positive arena width and every (finite) configuration of
active bodies there is enough fuel for the embedded `while (true)`
placement-search loop to return — i.e. the source loop terminates: each
iteration grows the offset by 5, and once the offset exceeds the distance
from the center to both boundaries the fallback exit fires if no candidate
was accepted earlier. -/
theorem C9_search_terminates (w y radius : ℚ) (fruits : List GameFruit)
    (hw : 0 < w) :
    ∃ fuel : ℕ, (searchAux w y radius fruits fuel 1).isSome = true := by
  obtain ⟨n, hn⟩ := exists_nat_gt (w / 2)
  refine ⟨n + 1, searchAux_isSome w y radius fruits n 1 ?_⟩
  have h5 : (n : ℚ) ≤ 5 * n := by
    have : (0:ℚ) ≤ n := Nat.cast_nonneg n
    linarith
  linarith

/-- Witness for C9 on a concrete 400-wide arena with no bodies. -/
theorem C9_search_terminates_witness :
    ∃ fuel : ℕ, (searchAux 400 350 15 [] fuel 1).isSome = true :=
  C9_search_terminates 400 350 15 [] (by norm_num)

/-! ## C5: range and merge-monotonicity of the fill percentage -/

/-- Splitting the occupied-area fold over its accumulator. -/
lemma foldl_area_shift (piV : ℚ) (fruits : List GameFruit) (init : ℚ) :
    fruits.foldl (fun acc f => acc + piV * f.radius * f.radius) init
      = init + fruits.foldl (fun acc f => acc + piV * f.radius * f.radius) 0 := by
  induction fruits generalizing init with
  | nil => simp
  | cons a l ih =>
    simp only [List.foldl_cons]
    rw [ih (init + piV * a.radius * a.radius), ih (0 + piV * a.radius * a.radius)]
    ring

/-- The occupied-area fold is the sum of the per-body disc areas. -/
lemma foldl_area_eq_sum (piV : ℚ) (fruits : List GameFruit) :
    fruits.foldl (fun acc f => acc + piV * f.radius * f.radius) 0
      = (fruits.map fun f => piV * f.radius * f.radius).sum := by
  induction fruits with
  | nil => simp
  | cons a l ih =>
    simp only [List.foldl_cons, List.map_cons, List.sum_cons]
    rw [foldl_area_shift, ih]
    ring

/-- Disc areas are non-negative for a non-negative π approximation. -/
lemma area_sum_nonneg (piV : ℚ) (hpi : 0 ≤ piV) (fruits : List GameFruit) :
    0 ≤ (fruits.map fun f => piV * f.radius * f.radius).sum := by
  apply List.sum_nonneg
  intro q hq
  simp only [List.mem_map] at hq
  obtain ⟨f, _, rfl⟩ := hq
  nlinarith [mul_self_nonneg f.radius]

/-- C5 (amended): the occupancy read equals
`min (100 * Σ piV*r_i^2 / (w*h)) 100`, is always within `[0, 100]`, and is
monotonically non-INCREASING under a catalog merge: replacing two tier-`t`
bodies by one tier-`t+1` body never raises it, because
`r_{t+1}^2 ≤ 2 * r_t^2` holds for every tier of the catalog. -/
theorem C5_amended (piV w h : ℚ) (hpi : 0 ≤ piV) (hw : 0 < w) (hh : 0 < h) :
    (∀ fruits, calculateFillPercentage piV w h fruits
      = min ((fruits.map fun f => piV * f.radius * f.radius).sum / (w * h) * 100)
          100) ∧
    (∀ fruits, 0 ≤ calculateFillPercentage piV w h fruits ∧
      calculateFillPercentage piV w h fruits ≤ 100) ∧
    (∀ t : ℕ, t < 10 → ∀ (b1 b2 m : GameFruit) (l : List GameFruit),
      b1.radius = (fruitTypeAt t).radius → b2.radius = (fruitTypeAt t).radius →
      m.radius = (fruitTypeAt (t + 1)).radius →
      calculateFillPercentage piV w h (l.concat m)
        ≤ calculateFillPercentage piV w h (b1 :: b2 :: l)) := by
  have hwh : 0 < w * h := mul_pos hw hh
  have heq : ∀ fruits : List GameFruit, calculateFillPercentage piV w h fruits
      = min ((fruits.map fun f => piV * f.radius * f.radius).sum / (w * h) * 100)
          100 := by
    intro fruits
    simp only [calculateFillPercentage, foldl_area_eq_sum]
  refine ⟨heq, fun fruits => ?_, fun t ht b1 b2 m l hb1 hb2 hm => ?_⟩
  · rw [heq]
    refine ⟨le_min ?_ (by norm_num), min_le_right _ _⟩
    have hs := area_sum_nonneg piV hpi fruits
    exact mul_nonneg (div_nonneg hs hwh.le) (by norm_num)
  · rw [heq, heq]
    have hr2 : (fruitTypeAt (t + 1)).radius * (fruitTypeAt (t + 1)).radius
        ≤ 2 * ((fruitTypeAt t).radius * (fruitTypeAt t).radius) := by
      interval_cases t <;> norm_num [fruitTypeAt, fruitTypes]
    have hsum : ((l.concat m).map fun f => piV * f.radius * f.radius).sum
        ≤ ((b1 :: b2 :: l).map fun f => piV * f.radius * f.radius).sum := by
      simp only [List.concat_eq_append, List.map_append, List.map_cons,
        List.map_nil, List.sum_append, List.sum_cons, List.sum_nil]
      rw [hb1, hb2, hm]
      nlinarith [mul_le_mul_of_nonneg_left hr2 hpi]
    apply min_le_min _ le_rfl
    have hdiv : ((l.concat m).map fun f => piV * f.radius * f.radius).sum / (w * h)
        ≤ ((b1 :: b2 :: l).map fun f => piV * f.radius * f.radius).sum / (w * h) :=
      (div_le_div_iff_of_pos_right hwh).mpr hsum
    exact mul_le_mul_of_nonneg_right hdiv (by norm_num)

def c5cherry1 : GameFruit := ⟨0, 15, "#8A2BE2", "Cherry", 1, 100, 200, 0, 0, 0, 0⟩

def c5cherry2 : GameFruit := ⟨0, 15, "#8A2BE2", "Cherry", 1, 110, 200, 0, 0, 0, 0⟩

def c5sq : ℚ → ℚ := fun q => if q = 100 then 10 else 0

set_option maxHeartbeats 2000000 in
/-- C5 counterexample: two overlapping cherries (tier 0) genuinely merge in
one `update` into a single strawberry (tier 1), and the occupancy strictly
DECREASES (from `2827431/3200000` to `314159/400000` with π ≈ 3.14159 on a
400×400 arena): a merge can lower the occupancy, refuting the claimed
non-decrease. -/
theorem C5_counterexample :
    ((update c5sq 400 400 [c5cherry1, c5cherry2] 0).1.map GameFruit.typeIndex
      = [1]) ∧
    calculateFillPercentage (314159/100000) 400 400
        (update c5sq 400 400 [c5cherry1, c5cherry2] 0).1
      < calculateFillPercentage (314159/100000) 400 400
          [c5cherry1, c5cherry2] := by
  constructor
  · norm_num [update, outerLoop, innerLoop, collideAt, stepFruit, c5sq,
      c5cherry1, c5cherry2, fruitTypeAt, fruitTypes, List.eraseIdx]
  · norm_num [update, outerLoop, innerLoop, collideAt, stepFruit, c5sq,
      c5cherry1, c5cherry2, fruitTypeAt, fruitTypes, List.eraseIdx,
      calculateFillPercentage]

def c5straw : GameFruit := ⟨1, 20, "#B11D97", "Strawberry", 2, 105, 200, 0, 0, 1, 0⟩

/-- Witness for the amended C5: range of the gauge on a single cherry, and
non-increase when two cherries are replaced by one strawberry. -/
theorem C5_amended_witness :
    (0 ≤ calculateFillPercentage 3 400 400 [c5cherry1] ∧
      calculateFillPercentage 3 400 400 [c5cherry1] ≤ 100) ∧
    calculateFillPercentage 3 400 400 (([] : List GameFruit).concat c5straw)
      ≤ calculateFillPercentage 3 400 400 (c5cherry1 :: c5cherry2 :: []) :=
  ⟨(C5_amended 3 400 400 (by norm_num) (by norm_num) (by norm_num)).2.1
      [c5cherry1],
   (C5_amended 3 400 400 (by norm_num) (by norm_num) (by norm_num)).2.2 0
     (by norm_num) c5cherry1 c5cherry2 c5straw []
     (by norm_num [c5cherry1, fruitTypeAt, fruitTypes])
     (by norm_num [c5cherry2, fruitTypeAt, fruitTypes])
     (by norm_num [c5straw, fruitTypeAt, fruitTypes])⟩

/-! ## C7: the bounce scenario (friction precedes the wall bounce) -/

def c7fruit : GameFruit := ⟨0, 15, "#8A2BE2", "Cherry", 1, 387, 200, 10, 0, 0, 0⟩

/-- C7 counterexample: width = height = 400, radius 15; the body starts with
its right edge 2 units past the right boundary (`x = 387 = 400 - 15 + 2`)
with `vx = 10, vy = 0`.  After one `update` the position is clamped to
`width - radius = 385`, but the velocity is
`10 * 0.98 * (-0.7) = -343/50 = -6.86`, not `-7`: friction multiplies the
velocity before the bounce does. -/
theorem C7_counterexample :
    c7fruit.x = 400 - c7fruit.radius + 2 ∧ c7fruit.vx = 10 ∧ c7fruit.vy = 0 ∧
    ((update (fun _ => 0) 400 400 [c7fruit] 0).1.map fun f => (f.x, f.vx))
      = [((385 : ℚ), (-343/50 : ℚ))] ∧
    ((-343/50 : ℚ)) ≠ -7 := by
  refine ⟨by norm_num [c7fruit], rfl, rfl, ?_, by norm_num⟩
  norm_num [update, outerLoop, innerLoop, stepFruit, c7fruit]

/-- C7 (amended): for any single body with `vx = 10, vy = 0` whose right
edge starts 2 units past the right boundary (and which fits the arena and
stays clear of the top/bottom walls), one step yields
`x = width - radius` and `vx = -343/50` (that is `10 * 0.98 * (-0.7)`,
the claimed `-7` being off by the friction factor). -/
theorem C7_amended (sq : ℚ → ℚ) (w h r y : ℚ) (h2r : 2 * r ≤ w)
    (hy1 : r ≤ y) (hy2 : y + r ≤ h) (f : GameFruit)
    (hfx : f.x = w - r + 2) (hfr : f.radius = r) (hfy : f.y = y)
    (hvx : f.vx = 10) (hvy : f.vy = 0) :
    (update sq w h [f] 0).1
      = [{ f with x := w - r, vx := -343/50, angle := f.angle + 49/100 }] := by
  have hstep : stepFruit w h f
      = { f with x := w - r, vx := -343/50, angle := f.angle + 49/100 } := by
    unfold stepFruit
    dsimp only
    rw [hfx, hfr, hfy, hvx, hvy]
    rw [if_neg (by linarith), if_pos (by linarith), if_neg (by linarith),
      if_neg (by linarith)]
    simp only [GameFruit.mk.injEq]
    norm_num [hfy, hvy]
  simp [update, outerLoop, innerLoop, hstep]

/-- Witness for the amended C7 at the concrete counterexample input. -/
theorem C7_amended_witness :
    (update (fun _ => 0) 400 400 [c7fruit] 0).1
      = [{ c7fruit with
             x := 400 - 15
             vx := -343/50
             angle := c7fruit.angle + 49/100 }] :=
  C7_amended (fun _ => 0) 400 400 15 200 (by norm_num) (by norm_num)
    (by norm_num) c7fruit (by norm_num [c7fruit]) rfl rfl rfl rfl

/-! ## C6: wall clamping holds after Phase A, not after the full step -/

/-- C6 (amended): immediately after the integration phase (`stepFruit`),
any body whose edge crossed a wall on an axis satisfies
`radius ≤ coordinate ≤ dimension - radius` on that axis (given that its
diameter fits the arena), and its velocity component was multiplied by
`-0.7`, flipping its sign whenever it was nonzero. -/
theorem C6_amended (w h : ℚ) (f : GameFruit) (h2w : 2 * f.radius ≤ w)
    (h2h : 2 * f.radius ≤ h) :
    ((f.x + f.vx * (49/50)) - f.radius < 0 ∨
        (f.x + f.vx * (49/50)) + f.radius > w →
      f.radius ≤ (stepFruit w h f).x ∧ (stepFruit w h f).x ≤ w - f.radius ∧
      (stepFruit w h f).vx = f.vx * (49/50) * (-(7/10)) ∧
      (f.vx ≠ 0 → (stepFruit w h f).vx * f.vx < 0)) ∧
    ((f.y + f.vy * (49/50)) - f.radius < 0 ∨
        (f.y + f.vy * (49/50)) + f.radius > h →
      f.radius ≤ (stepFruit w h f).y ∧ (stepFruit w h f).y ≤ h - f.radius ∧
      (stepFruit w h f).vy = f.vy * (49/50) * (-(7/10)) ∧
      (f.vy ≠ 0 → (stepFruit w h f).vy * f.vy < 0)) := by
  constructor
  · intro hcross
    unfold stepFruit
    dsimp only
    by_cases hL : f.x + f.vx * (49/50) - f.radius < 0
    · rw [if_pos hL]
      refine ⟨le_refl _, by linarith, rfl, fun hv0 => ?_⟩
      have hvv : 0 < f.vx * f.vx := mul_self_pos.2 hv0
      nlinarith
    · have hR : f.x + f.vx * (49/50) + f.radius > w := by
        rcases hcross with hc | hc
        · exact absurd hc hL
        · exact hc
      rw [if_neg hL, if_pos hR]
      refine ⟨by linarith, by linarith, rfl, fun hv0 => ?_⟩
      have hvv : 0 < f.vx * f.vx := mul_self_pos.2 hv0
      nlinarith
  · intro hcross
    unfold stepFruit
    dsimp only
    by_cases hL : f.y + f.vy * (49/50) - f.radius < 0
    · rw [if_pos hL]
      refine ⟨le_refl _, by linarith, rfl, fun hv0 => ?_⟩
      have hvv : 0 < f.vy * f.vy := mul_self_pos.2 hv0
      nlinarith
    · have hR : f.y + f.vy * (49/50) + f.radius > h := by
        rcases hcross with hc | hc
        · exact absurd hc hL
        · exact hc
      rw [if_neg hL, if_pos hR]
      refine ⟨by linarith, by linarith, rfl, fun hv0 => ?_⟩
      have hvv : 0 < f.vy * f.vy := mul_self_pos.2 hv0
      nlinarith

def c6wfruit : GameFruit := ⟨0, 15, "#8A2BE2", "Cherry", 1, 10, 200, -5, 0, 0, 0⟩

/-- Witness for the amended C6: a cherry crossing the left wall. -/
theorem C6_amended_witness :
    c6wfruit.radius ≤ (stepFruit 400 400 c6wfruit).x ∧
    (stepFruit 400 400 c6wfruit).x ≤ 400 - c6wfruit.radius ∧
    (stepFruit 400 400 c6wfruit).vx = c6wfruit.vx * (49/50) * (-(7/10)) ∧
    (stepFruit 400 400 c6wfruit).vx * c6wfruit.vx < 0 := by
  have hx := (C6_amended 400 400 c6wfruit (by norm_num [c6wfruit])
    (by norm_num [c6wfruit])).1 (Or.inl (by norm_num [c6wfruit]))
  exact ⟨hx.1, hx.2.1, hx.2.2.1, hx.2.2.2 (by norm_num [c6wfruit])⟩

def c6cexA : GameFruit := ⟨0, 15, "#8A2BE2", "Cherry", 1, 16, 200, -100/49, 0, 0, 0⟩

def c6cexB : GameFruit := ⟨1, 20, "#B11D97", "Strawberry", 2, 46, 200, 0, 0, 1, 0⟩

def c6sq : ℚ → ℚ := fun q => if q = 961 then 31 else 0

set_option maxHeartbeats 2000000 in
/-- C6 counterexample: the cherry's edge crosses the left wall during the
step (its integrated position is `14 < radius`), the integration phase
clamps it to `x = 15`, but the subsequent pair-separation with the
overlapping strawberry pushes it back out to `x = 13 < radius = 15`: the
post-step position violates `radius ≤ coordinate`. -/
theorem C6_counterexample :
    ((c6cexA.x + c6cexA.vx * (49/50)) - c6cexA.radius < 0) ∧
    ((update c6sq 400 400 [c6cexA, c6cexB] 0).1.map fun f => (f.x, f.radius))
      = [((13 : ℚ), (15 : ℚ)), ((48 : ℚ), (20 : ℚ))] ∧
    (13 : ℚ) < 15 := by
  refine ⟨by norm_num [c6cexA], ?_, by norm_num⟩
  norm_num [update, outerLoop, innerLoop, collideAt, stepFruit, c6sq, c6cexA,
    c6cexB, fruitTypeAt, fruitTypes]

/-! ## C1: the merge branch of the pairwise scan -/

/-- C1: when the scan reaches an overlapping pair of equal tier strictly
below the terminal tier 10, it removes both bodies and appends exactly one
new body: tier `t+1`, positioned at the midpoint of the pair's
(post-separation) positions — the symmetric ±`tx/2` shifts cancel, so this
equals the pre-separation midpoint `( (x1 - tx/2) + (x2 + tx/2) ) / 2 =
(x1+x2)/2` — rotation zero, and velocity `((m1*v1 + m2*v2) / newMass) * 0.5`
where `m1, m2` are the two old radii, `newMass` is the new tier's radius and
`v1, v2` are the velocities the two bodies hold at the merge (i.e. after
the elastic response of the same scan iteration, spelled out below in terms
of the pre-scan velocities); the collection's count decreases by exactly
one and the score increases by the new tier's `score`. -/
theorem C1_merge (sq : ℚ → ℚ) (fruits : List GameFruit) (score : ℕ) (i j : ℕ)
    (f1 f2 : GameFruit) (d : ℚ)
    (hi : fruits[i]? = some f1) (hj : fruits[j]? = some f2) (hij : i < j)
    (hsq : sq ((f2.x - f1.x) * (f2.x - f1.x) + (f2.y - f1.y) * (f2.y - f1.y))
      = d)
    (hd2 : d * d
      = (f2.x - f1.x) * (f2.x - f1.x) + (f2.y - f1.y) * (f2.y - f1.y))
    (hdnn : 0 ≤ d)
    (hover : d < f1.radius + f2.radius)
    (ht : f1.typeIndex = f2.typeIndex) (hterm : f1.typeIndex < 10) :
    collideAt sq fruits score i j
      = (((fruits.eraseIdx j).eraseIdx i).concat
          { rank := (fruitTypeAt (f1.typeIndex + 1)).rank
            radius := (fruitTypeAt (f1.typeIndex + 1)).radius
            color := (fruitTypeAt (f1.typeIndex + 1)).color
            name := (fruitTypeAt (f1.typeIndex + 1)).name
            score := (fruitTypeAt (f1.typeIndex + 1)).score
            x := (f1.x + f2.x) / 2
            y := (f1.y + f2.y) / 2
            vx := (f1.radius * ((f1.vx * (f1.radius - f2.radius)
                      + 2 * f2.radius * f2.vx) / (f1.radius + f2.radius)
                      * (19/20))
                   + f2.radius * ((f2.vx * (f2.radius - f1.radius)
                      + 2 * f1.radius * f1.vx) / (f1.radius + f2.radius)
                      * (19/20)))
                  / (fruitTypeAt (f1.typeIndex + 1)).radius * (1/2)
            vy := (f1.radius * ((f1.vy * (f1.radius - f2.radius)
                      + 2 * f2.radius * f2.vy) / (f1.radius + f2.radius)
                      * (19/20))
                   + f2.radius * ((f2.vy * (f2.radius - f1.radius)
                      + 2 * f1.radius * f1.vy) / (f1.radius + f2.radius)
                      * (19/20)))
                  / (fruitTypeAt (f1.typeIndex + 1)).radius * (1/2)
            typeIndex := f1.typeIndex + 1
            angle := 0 },
         score + (fruitTypeAt (f1.typeIndex + 1)).score, true) ∧
    (collideAt sq fruits score i j).1.length = fruits.length - 1 := by
  have hlen11 : fruitTypes.length = 11 := rfl
  have hterm2 : f1.typeIndex < fruitTypes.length - 1 := by omega
  have hmain : collideAt sq fruits score i j
      = (((fruits.eraseIdx j).eraseIdx i).concat
          { rank := (fruitTypeAt (f1.typeIndex + 1)).rank
            radius := (fruitTypeAt (f1.typeIndex + 1)).radius
            color := (fruitTypeAt (f1.typeIndex + 1)).color
            name := (fruitTypeAt (f1.typeIndex + 1)).name
            score := (fruitTypeAt (f1.typeIndex + 1)).score
            x := (f1.x + f2.x) / 2
            y := (f1.y + f2.y) / 2
            vx := (f1.radius * ((f1.vx * (f1.radius - f2.radius)
                      + 2 * f2.radius * f2.vx) / (f1.radius + f2.radius)
                      * (19/20))
                   + f2.radius * ((f2.vx * (f2.radius - f1.radius)
                      + 2 * f1.radius * f1.vx) / (f1.radius + f2.radius)
                      * (19/20)))
                  / (fruitTypeAt (f1.typeIndex + 1)).radius * (1/2)
            vy := (f1.radius * ((f1.vy * (f1.radius - f2.radius)
                      + 2 * f2.radius * f2.vy) / (f1.radius + f2.radius)
                      * (19/20))
                   + f2.radius * ((f2.vy * (f2.radius - f1.radius)
                      + 2 * f1.radius * f1.vy) / (f1.radius + f2.radius)
                      * (19/20)))
                  / (fruitTypeAt (f1.typeIndex + 1)).radius * (1/2)
            typeIndex := f1.typeIndex + 1
            angle := 0 },
         score + (fruitTypeAt (f1.typeIndex + 1)).score, true) := by
    unfold collideAt
    rw [hi, hj]
    dsimp only
    rw [hsq, if_pos hover, if_pos ⟨ht, hterm2⟩]
    refine congrArg (fun l => (l, score + (fruitTypeAt (f1.typeIndex + 1)).score,
      true)) ?_
    refine congrArg _ ?_
    simp only [GameFruit.mk.injEq, and_true, true_and]
    exact ⟨by ring, by ring⟩
  obtain ⟨hjl, -⟩ := List.getElem?_eq_some_iff.mp hj
  refine ⟨hmain, ?_⟩
  rw [hmain]
  simp only [List.length_concat, List.length_eraseIdx]
  rw [if_pos hjl, if_pos (show i < fruits.length - 1 by omega)]
  omega

def c1w1 : GameFruit := ⟨0, 15, "#8A2BE2", "Cherry", 1, 100, 200, 3, 0, 0, 0⟩

def c1w2 : GameFruit := ⟨0, 15, "#8A2BE2", "Cherry", 1, 110, 200, 0, 0, 0, 0⟩

def c1sq : ℚ → ℚ := fun q => if q = 100 then 10 else 0

/-- Witness for C1: two overlapping cherries at distance 10; the merge
branch shrinks the collection from 2 to 1 and reports the break. -/
theorem C1_merge_witness :
    (collideAt c1sq [c1w1, c1w2] 0 0 1).1.length = [c1w1, c1w2].length - 1 ∧
    (collideAt c1sq [c1w1, c1w2] 0 0 1).2.2 = true := by
  have hc := C1_merge c1sq [c1w1, c1w2] 0 0 1 c1w1 c1w2 10 rfl rfl
    (by norm_num) (by norm_num [c1sq, c1w1, c1w2]) (by norm_num [c1w1, c1w2])
    (by norm_num) (by norm_num [c1w1, c1w2]) rfl (by norm_num [c1w1])
  refine ⟨hc.2, ?_⟩
  rw [hc.1]

/-! ## C4: the outward spawn-placement search -/

/-- The source's acceptance test for a right candidate at offset `5*k`. -/
def rightOk (w y radius : ℚ) (fruits : List GameFruit) (k : ℕ) : Prop :=
  w / 2 + 5 * (k : ℚ) + radius < w ∧
    isOverlapping fruits (w / 2 + 5 * (k : ℚ)) y radius = false

/-- The source's acceptance test for a left candidate at offset `5*k`. -/
def leftOk (w y radius : ℚ) (fruits : List GameFruit) (k : ℕ) : Prop :=
  w / 2 - 5 * (k : ℚ) - radius > 0 ∧
    isOverlapping fruits (w / 2 - 5 * (k : ℚ)) y radius = false

/-- The source's loop-exit (fallback) test after incrementing the offset:
the next offset exceeds the distance from the center to both boundaries. -/
def exitCond (w : ℚ) (k : ℕ) : Prop :=
  w / 2 - 5 * ((k : ℚ) + 1) < 0 ∧ w / 2 + 5 * ((k : ℚ) + 1) > w

/-- The claim's acceptance notion: the candidate circle lies strictly
inside the horizontal bounds and overlaps no existing body. -/
def candidateOk (w y radius cx : ℚ) (fruits : List GameFruit) : Prop :=
  0 < cx - radius ∧ cx + radius < w ∧
    isOverlapping fruits cx y radius = false

/-- For a right candidate the source's single bound check is equivalent to
the claim's two-sided bound check (the inner bound follows since the
candidate sits at or right of the center of a positive-width field). -/
lemma rightOk_iff_candidateOk (w y radius : ℚ) (fruits : List GameFruit)
    (k : ℕ) (hw : 0 < w) :
    rightOk w y radius fruits k ↔
      candidateOk w y radius (w / 2 + 5 * (k : ℚ)) fruits := by
  unfold rightOk candidateOk
  have hk : (0 : ℚ) ≤ 5 * (k : ℚ) := by positivity
  constructor
  · rintro ⟨h1, h2⟩
    exact ⟨by linarith, h1, h2⟩
  · rintro ⟨h0, h1, h2⟩
    exact ⟨h1, h2⟩

/-- For a left candidate the source's single bound check is equivalent to
the claim's two-sided bound check. -/
lemma leftOk_iff_candidateOk (w y radius : ℚ) (fruits : List GameFruit)
    (k : ℕ) (hw : 0 < w) :
    leftOk w y radius fruits k ↔
      candidateOk w y radius (w / 2 - 5 * (k : ℚ)) fruits := by
  unfold leftOk candidateOk
  have hk : (0 : ℚ) ≤ 5 * (k : ℚ) := by positivity
  constructor
  · rintro ⟨h1, h2⟩
    exact ⟨h1, by linarith, h2⟩
  · rintro ⟨h0, h1, h2⟩
    exact ⟨h0, h2⟩

/-- Full characterization of the search loop: with sufficient fuel it stops
at the first offset index `m ≥ k` that is accepted (right candidate tried
before left) or triggers the fallback exit, every smaller index having been
rejected on both sides without exiting. -/
lemma searchAux_char (w y radius : ℚ) (fruits : List GameFruit) :
    ∀ (fuel k : ℕ), w / 2 < 5 * ((k : ℚ) + 1 + fuel) →
      ∃ m : ℕ, k ≤ m ∧
        (∀ n : ℕ, k ≤ n → n < m → ¬ rightOk w y radius fruits n ∧
          ¬ leftOk w y radius fruits n ∧ ¬ exitCond w n) ∧
        ((rightOk w y radius fruits m ∧
            searchAux w y radius fruits (fuel + 1) k
              = some (w / 2 + 5 * (m : ℚ))) ∨
         (¬ rightOk w y radius fruits m ∧ leftOk w y radius fruits m ∧
            searchAux w y radius fruits (fuel + 1) k
              = some (w / 2 - 5 * (m : ℚ))) ∨
         (¬ rightOk w y radius fruits m ∧ ¬ leftOk w y radius fruits m ∧
            exitCond w m ∧
            searchAux w y radius fruits (fuel + 1) k = some (w / 2))) := by
  intro fuel
  induction fuel with
  | zero =>
    intro k hk
    push_cast at hk
    refine ⟨k, le_refl k, fun n hn1 hn2 => absurd hn2 (by omega), ?_⟩
    by_cases h1 : rightOk w y radius fruits k
    · refine Or.inl ⟨h1, ?_⟩
      unfold searchAux
      dsimp only
      unfold rightOk at h1
      rw [if_pos h1]
    · by_cases h2 : leftOk w y radius fruits k
      · refine Or.inr (Or.inl ⟨h1, h2, ?_⟩)
        unfold searchAux
        dsimp only
        unfold rightOk at h1
        unfold leftOk at h2
        rw [if_neg h1, if_pos h2]
      · have h3 : exitCond w k := ⟨by linarith, by linarith⟩
        refine Or.inr (Or.inr ⟨h1, h2, h3, ?_⟩)
        unfold searchAux
        dsimp only
        unfold rightOk at h1
        unfold leftOk at h2
        have h4 : w / 2 - 5 * ((k : ℚ) + 1) < 0 ∧ w / 2 + 5 * ((k : ℚ) + 1) > w :=
          h3
        rw [if_neg h1, if_neg h2, if_pos h4]
  | succ fuel ih =>
    intro k hk
    by_cases h1 : rightOk w y radius fruits k
    · refine ⟨k, le_refl k, fun n hn1 hn2 => absurd hn2 (by omega),
        Or.inl ⟨h1, ?_⟩⟩
      unfold searchAux
      dsimp only
      unfold rightOk at h1
      rw [if_pos h1]
    · by_cases h2 : leftOk w y radius fruits k
      · refine ⟨k, le_refl k, fun n hn1 hn2 => absurd hn2 (by omega),
          Or.inr (Or.inl ⟨h1, h2, ?_⟩)⟩
        unfold searchAux
        dsimp only
        unfold rightOk at h1
        unfold leftOk at h2
        rw [if_neg h1, if_pos h2]
      · by_cases h3 : exitCond w k
        · refine ⟨k, le_refl k, fun n hn1 hn2 => absurd hn2 (by omega),
            Or.inr (Or.inr ⟨h1, h2, h3, ?_⟩)⟩
          unfold searchAux
          dsimp only
          unfold rightOk at h1
          unfold leftOk at h2
          have h4 : w / 2 - 5 * ((k : ℚ) + 1) < 0 ∧ w / 2 + 5 * ((k : ℚ) + 1) > w :=
            h3
          rw [if_neg h1, if_neg h2, if_pos h4]
        · obtain ⟨m, hm1, hm2, hm3⟩ := ih (k + 1) (by push_cast at hk ⊢; linarith)
          have hstep : searchAux w y radius fruits (fuel + 1 + 1) k
              = searchAux w y radius fruits (fuel + 1) (k + 1) := by
            conv_lhs => rw [searchAux]
            dsimp only
            have h1x : ¬ (w / 2 + 5 * (k : ℚ) + radius < w ∧
                isOverlapping fruits (w / 2 + 5 * (k : ℚ)) y radius = false) := h1
            have h2x : ¬ (w / 2 - 5 * (k : ℚ) - radius > 0 ∧
                isOverlapping fruits (w / 2 - 5 * (k : ℚ)) y radius = false) := h2
            have h3x : ¬ (w / 2 - 5 * ((k : ℚ) + 1) < 0 ∧
                w / 2 + 5 * ((k : ℚ) + 1) > w) := h3
            rw [if_neg h1x, if_neg h2x, if_neg h3x]
          rw [← hstep] at hm3
          refine ⟨m, by omega, ?_, hm3⟩
          intro n hn1 hn2
          rcases Nat.eq_or_lt_of_le hn1 with heq | hlt
          · subst heq
            exact ⟨h1, h2, h3⟩
          · exact hm2 n hlt hn2

/-- The placement actually computed, characterized against the source's
acceptance/exit tests. -/
lemma placeFruitX_spec (w h radius : ℚ) (fruits : List GameFruit)
    (hw : 0 < w)
    (hover : isOverlapping fruits (w / 2) (h - 50) radius = true) :
    ∃ m : ℕ, 1 ≤ m ∧
      (∀ n : ℕ, 1 ≤ n → n < m → ¬ rightOk w (h - 50) radius fruits n ∧
        ¬ leftOk w (h - 50) radius fruits n ∧ ¬ exitCond w n) ∧
      ((rightOk w (h - 50) radius fruits m ∧
          placeFruitX w h radius fruits = w / 2 + 5 * (m : ℚ)) ∨
       (¬ rightOk w (h - 50) radius fruits m ∧ leftOk w (h - 50) radius fruits m ∧
          placeFruitX w h radius fruits = w / 2 - 5 * (m : ℚ)) ∨
       (¬ rightOk w (h - 50) radius fruits m ∧ ¬ leftOk w (h - 50) radius fruits m ∧
          exitCond w m ∧ placeFruitX w h radius fruits = w / 2)) := by
  have hceil : w ≤ ((⌈w⌉.toNat : ℕ) : ℚ) := by
    have h1 : w ≤ (⌈w⌉ : ℚ) := Int.le_ceil w
    have h2 : ((⌈w⌉ : ℤ) : ℚ) ≤ ((⌈w⌉.toNat : ℕ) : ℚ) := by
      exact_mod_cast Int.self_le_toNat ⌈w⌉
    linarith
  obtain ⟨m, hm1, hm2, hm3⟩ := searchAux_char w (h - 50) radius fruits
    (⌈w⌉.toNat) 1 (by push_cast; linarith)
  have hx : placeFruitX w h radius fruits
      = match searchAux w (h - 50) radius fruits (⌈w⌉.toNat + 1) 1 with
        | some x2 => x2
        | none => w / 2 := by
    unfold placeFruitX searchFuel
    dsimp only
    rw [if_pos hover]
  refine ⟨m, hm1, hm2, ?_⟩
  rcases hm3 with ⟨hR, heq⟩ | ⟨hnR, hL, heq⟩ | ⟨hnR, hnL, hex, heq⟩
  · exact Or.inl ⟨hR, by rw [hx, heq]⟩
  · exact Or.inr (Or.inl ⟨hnR, hL, by rw [hx, heq]⟩)
  · exact Or.inr (Or.inr ⟨hnR, hnL, hex, by rw [hx, heq]⟩)

/-- C4: the pending body is placed at `y = height - 50`, with zero velocity
and zero rotation; when the centered circle overlaps some active body, its
`x` is the first candidate `width/2 ± 5k` (right tried before left) for the
smallest `k ≥ 1` whose circle lies strictly inside the horizontal bounds
and overlaps no body; if every offset up to the fallback exit (the offset
exceeding the distance from center to both boundaries) is rejected, `x`
falls back to `width/2`. -/
theorem C4_spawn_placement (w h : ℚ) (tIdx : ℕ) (fruits : List GameFruit)
    (hw : 0 < w)
    (hover : isOverlapping fruits (w / 2) (h - 50)
      (fruitTypeAt tIdx).radius = true) :
    (mkPendingFruit w h tIdx fruits).y = h - 50 ∧
    (mkPendingFruit w h tIdx fruits).vx = 0 ∧
    (mkPendingFruit w h tIdx fruits).vy = 0 ∧
    (mkPendingFruit w h tIdx fruits).angle = 0 ∧
    ∃ m : ℕ, 1 ≤ m ∧
      (∀ n : ℕ, 1 ≤ n → n < m →
        ¬ candidateOk w (h - 50) (fruitTypeAt tIdx).radius
            (w / 2 + 5 * (n : ℚ)) fruits ∧
        ¬ candidateOk w (h - 50) (fruitTypeAt tIdx).radius
            (w / 2 - 5 * (n : ℚ)) fruits ∧
        ¬ exitCond w n) ∧
      ((candidateOk w (h - 50) (fruitTypeAt tIdx).radius
            (w / 2 + 5 * (m : ℚ)) fruits ∧
          (mkPendingFruit w h tIdx fruits).x = w / 2 + 5 * (m : ℚ)) ∨
       (¬ candidateOk w (h - 50) (fruitTypeAt tIdx).radius
            (w / 2 + 5 * (m : ℚ)) fruits ∧
          candidateOk w (h - 50) (fruitTypeAt tIdx).radius
            (w / 2 - 5 * (m : ℚ)) fruits ∧
          (mkPendingFruit w h tIdx fruits).x = w / 2 - 5 * (m : ℚ)) ∨
       (¬ candidateOk w (h - 50) (fruitTypeAt tIdx).radius
            (w / 2 + 5 * (m : ℚ)) fruits ∧
          ¬ candidateOk w (h - 50) (fruitTypeAt tIdx).radius
            (w / 2 - 5 * (m : ℚ)) fruits ∧
          exitCond w m ∧
          (mkPendingFruit w h tIdx fruits).x = w / 2)) := by
  obtain ⟨m, hm1, hm2, hm3⟩ := placeFruitX_spec w h (fruitTypeAt tIdx).radius
    fruits hw hover
  have hxeq : (mkPendingFruit w h tIdx fruits).x
      = placeFruitX w h (fruitTypeAt tIdx).radius fruits := rfl
  refine ⟨rfl, rfl, rfl, rfl, m, hm1, ?_, ?_⟩
  · intro n hn1 hn2
    obtain ⟨hr, hl, he⟩ := hm2 n hn1 hn2
    exact ⟨fun hc => hr ((rightOk_iff_candidateOk w (h - 50) _ fruits n hw).mpr hc),
      fun hc => hl ((leftOk_iff_candidateOk w (h - 50) _ fruits n hw).mpr hc), he⟩
  · rcases hm3 with ⟨hR, heq⟩ | ⟨hnR, hL, heq⟩ | ⟨hnR, hnL, hex, heq⟩
    · exact Or.inl
        ⟨(rightOk_iff_candidateOk w (h - 50) _ fruits m hw).mp hR,
         by rw [hxeq, heq]⟩
    · exact Or.inr (Or.inl
        ⟨fun hc => hnR ((rightOk_iff_candidateOk w (h - 50) _ fruits m hw).mpr hc),
         (leftOk_iff_candidateOk w (h - 50) _ fruits m hw).mp hL,
         by rw [hxeq, heq]⟩)
    · exact Or.inr (Or.inr
        ⟨fun hc => hnR ((rightOk_iff_candidateOk w (h - 50) _ fruits m hw).mpr hc),
         fun hc => hnL ((leftOk_iff_candidateOk w (h - 50) _ fruits m hw).mpr hc),
         hex, by rw [hxeq, heq]⟩)

def c4blocker : GameFruit := ⟨0, 15, "#8A2BE2", "Cherry", 1, 200, 350, 0, 0, 0, 0⟩

/-- Witness for C4: a 400×400 arena whose spawn center is blocked by a
cherry sitting exactly at the spawn point. -/
theorem C4_spawn_placement_witness :
    (mkPendingFruit 400 400 0 [c4blocker]).y = 400 - 50 ∧
    (mkPendingFruit 400 400 0 [c4blocker]).vx = 0 ∧
    (mkPendingFruit 400 400 0 [c4blocker]).vy = 0 ∧
    (mkPendingFruit 400 400 0 [c4blocker]).angle = 0 ∧
    ∃ m : ℕ, 1 ≤ m ∧
      (∀ n : ℕ, 1 ≤ n → n < m →
        ¬ candidateOk 400 (400 - 50) (fruitTypeAt 0).radius
            (400 / 2 + 5 * (n : ℚ)) [c4blocker] ∧
        ¬ candidateOk 400 (400 - 50) (fruitTypeAt 0).radius
            (400 / 2 - 5 * (n : ℚ)) [c4blocker] ∧
        ¬ exitCond 400 n) ∧
      ((candidateOk 400 (400 - 50) (fruitTypeAt 0).radius
            (400 / 2 + 5 * (m : ℚ)) [c4blocker] ∧
          (mkPendingFruit 400 400 0 [c4blocker]).x = 400 / 2 + 5 * (m : ℚ)) ∨
       (¬ candidateOk 400 (400 - 50) (fruitTypeAt 0).radius
            (400 / 2 + 5 * (m : ℚ)) [c4blocker] ∧
          candidateOk 400 (400 - 50) (fruitTypeAt 0).radius
            (400 / 2 - 5 * (m : ℚ)) [c4blocker] ∧
          (mkPendingFruit 400 400 0 [c4blocker]).x = 400 / 2 - 5 * (m : ℚ)) ∨
       (¬ candidateOk 400 (400 - 50) (fruitTypeAt 0).radius
            (400 / 2 + 5 * (m : ℚ)) [c4blocker] ∧
          ¬ candidateOk 400 (400 - 50) (fruitTypeAt 0).radius
            (400 / 2 - 5 * (m : ℚ)) [c4blocker] ∧
          exitCond 400 m ∧
          (mkPendingFruit 400 400 0 [c4blocker]).x = 400 / 2)) :=
  C4_spawn_placement 400 400 0 [c4blocker] (by norm_num)
    (by norm_num [isOverlapping, c4blocker, fruitTypeAt, fruitTypes])

/-! ## C10: every reachable body carries a catalog tier index -/

/-- Phase A never touches the tier index. -/
lemma stepFruit_typeIndex (w h : ℚ) (f : GameFruit) :
    (stepFruit w h f).typeIndex = f.typeIndex := rfl

/-- One scan iteration preserves "all tier indices are at most 10": the
merge guard `typeIndex < fruitTypes.length - 1` caps the new index. -/
lemma collideAt_tier (sq : ℚ → ℚ) (fruits : List GameFruit) (score : ℕ)
    (i j : ℕ) (hinv : ∀ f ∈ fruits, f.typeIndex ≤ 10) :
    ∀ f ∈ (collideAt sq fruits score i j).1, f.typeIndex ≤ 10 := by
  intro f hf
  unfold collideAt at hf
  cases hgi : fruits[i]? with
  | none =>
    rw [hgi] at hf
    exact hinv f hf
  | some f1 =>
    cases hgj : fruits[j]? with
    | none =>
      rw [hgi, hgj] at hf
      exact hinv f hf
    | some f2 =>
      rw [hgi, hgj] at hf
      dsimp only at hf
      by_cases h1 : sq ((f2.x - f1.x) * (f2.x - f1.x)
          + (f2.y - f1.y) * (f2.y - f1.y)) < f1.radius + f2.radius
      · rw [if_pos h1] at hf
        by_cases h2 : f1.typeIndex = f2.typeIndex ∧
            f1.typeIndex < fruitTypes.length - 1
        · rw [if_pos h2] at hf
          dsimp only at hf
          rw [List.concat_eq_append, List.mem_append] at hf
          rcases hf with hf | hf
          · exact hinv f
              (((List.eraseIdx_sublist (fruits.eraseIdx j) i).trans
                (List.eraseIdx_sublist fruits j)).subset hf)
          · rw [List.mem_singleton] at hf
            subst hf
            have h11 : fruitTypes.length = 11 := rfl
            show f1.typeIndex + 1 ≤ 10
            omega
        · rw [if_neg h2] at hf
          dsimp only at hf
          rcases List.mem_or_eq_of_mem_set hf with hf2 | rfl
          · rcases List.mem_or_eq_of_mem_set hf2 with hf3 | rfl
            · exact hinv f hf3
            · exact hinv f1 (List.getElem?_mem hgi)
          · exact hinv f2 (List.getElem?_mem hgj)
      · rw [if_neg h1] at hf
        exact hinv f hf

/-- The inner scan loop preserves the tier bound. -/
lemma innerLoop_tier (sq : ℚ → ℚ) (i : ℕ) :
    ∀ (fuel j : ℕ) (fruits : List GameFruit) (score : ℕ),
      (∀ f ∈ fruits, f.typeIndex ≤ 10) →
      ∀ f ∈ (innerLoop sq i fuel j fruits score).1, f.typeIndex ≤ 10 := by
  intro fuel
  induction fuel with
  | zero =>
    intro j fruits score hinv f hf
    exact hinv f hf
  | succ fuel ih =>
    intro j fruits score hinv f hf
    unfold innerLoop at hf
    dsimp only at hf
    split_ifs at hf with hj hb
    · exact collideAt_tier sq fruits score i j hinv f hf
    · exact ih (j + 1) (collideAt sq fruits score i j).1
        (collideAt sq fruits score i j).2.1
        (collideAt_tier sq fruits score i j hinv) f hf
    · exact hinv f hf

/-- The outer scan loop preserves the tier bound. -/
lemma outerLoop_tier (sq : ℚ → ℚ) :
    ∀ (fuel i : ℕ) (fruits : List GameFruit) (score : ℕ),
      (∀ f ∈ fruits, f.typeIndex ≤ 10) →
      ∀ f ∈ (outerLoop sq fuel i fruits score).1, f.typeIndex ≤ 10 := by
  intro fuel
  induction fuel with
  | zero =>
    intro i fruits score hinv f hf
    exact hinv f hf
  | succ fuel ih =>
    intro i fruits score hinv f hf
    unfold outerLoop at hf
    dsimp only at hf
    split_ifs at hf with hi
    · exact ih (i + 1) _ _
        (innerLoop_tier sq i fruits.length (i + 1) fruits score hinv) f hf
    · exact hinv f hf

/-- A whole simulation step preserves the tier bound. -/
lemma update_tier (sq : ℚ → ℚ) (w h : ℚ) (fruits : List GameFruit) (score : ℕ)
    (hinv : ∀ f ∈ fruits, f.typeIndex ≤ 10) :
    ∀ f ∈ (update sq w h fruits score).1, f.typeIndex ≤ 10 := by
  intro f hf
  unfold update at hf
  dsimp only at hf
  refine outerLoop_tier sq _ 0 _ score ?_ f hf
  intro g hg
  rw [List.mem_map] at hg
  obtain ⟨f0, hf0, rfl⟩ := hg
  rw [stepFruit_typeIndex]
  exact hinv f0 hf0

/-- The tier bound carried through the whole game state. -/
def TierInv (s : GameState) : Prop :=
  (∀ f ∈ s.fruits, f.typeIndex ≤ 10) ∧
  (∀ b : GameFruit, s.fruitToLaunch = some b → b.typeIndex ≤ 10) ∧
  s.queuedIndex ≤ 10

/-- `checkGameOverFlag` only touches the `gameOver` field. -/
lemma checkGameOverFlag_parts (piV w h : ℚ) (s : GameState) :
    (checkGameOverFlag piV w h s).fruits = s.fruits ∧
    (checkGameOverFlag piV w h s).fruitToLaunch = s.fruitToLaunch ∧
    (checkGameOverFlag piV w h s).queuedIndex = s.queuedIndex := by
  unfold checkGameOverFlag
  split_ifs <;> exact ⟨rfl, rfl, rfl⟩

/-- Launching never changes the tier index of the launched body. -/
lemma launchBody_typeIndex (b : GameFruit) (ax ay d : ℚ) :
    (launchBody b ax ay d).typeIndex = b.typeIndex := rfl

/-- The freshly prepared pending body carries the queued tier index. -/
lemma mkPendingFruit_typeIndex (w h : ℚ) (tIdx : ℕ) (fruits : List GameFruit) :
    (mkPendingFruit w h tIdx fruits).typeIndex = tIdx := rfl

/-- Every game transition preserves `TierInv`. -/
lemma trans_TierInv (sq : ℚ → ℚ) (piV w h : ℚ) (s s2 : GameState)
    (ht : Trans sq piV w h s s2) (hinv : TierInv s) : TierInv s2 := by
  obtain ⟨h1, h2, h3⟩ := hinv
  cases ht with
  | frame =>
    by_cases hov : s.gameOver
    · have hfr : (gameLoopFrame sq piV w h s).1 = s := by
        simp [gameLoopFrame, hov]
      rw [hfr]
      exact ⟨h1, h2, h3⟩
    · have hfr : (gameLoopFrame sq piV w h s).1
          = checkGameOverFlag piV w h
              { s with fruits := (update sq w h s.fruits s.score).1,
                       score := (update sq w h s.fruits s.score).2 } := by
        simp [gameLoopFrame, hov]
      rw [hfr]
      obtain ⟨e1, e2, e3⟩ := checkGameOverFlag_parts piV w h
        { s with fruits := (update sq w h s.fruits s.score).1,
                 score := (update sq w h s.fruits s.score).2 }
      refine ⟨?_, ?_, ?_⟩
      · rw [e1]
        exact update_tier sq w h s.fruits s.score h1
      · intro b hb
        rw [e2] at hb
        exact h2 b hb
      · rw [e3]
        exact h3
  | launchT b ax ay d hb hd hdnn =>
    have hm : (mousedown s ax ay d).1
        = { s with fruits := s.fruits ++ [launchBody b ax ay d],
                   fruitToLaunch := none } := by
      simp [mousedown, hb]
    rw [hm]
    refine ⟨?_, ?_, h3⟩
    · intro f hf
      rcases List.mem_append.mp hf with hf1 | hf2
      · exact h1 f hf1
      · rw [List.mem_singleton] at hf2
        subst hf2
        rw [launchBody_typeIndex]
        exact h2 b hb
    · intro b2 hb2
      simp at hb2
  | spawnT idx hidx hp =>
    refine ⟨h1, ?_, show idx ≤ 10 by omega⟩
    intro b2 hb2
    have : mkPendingFruit w h s.queuedIndex s.fruits = b2 := by
      simpa using hb2
    rw [← this, mkPendingFruit_typeIndex]
    exact h3

/-- Every reachable state satisfies `TierInv`. -/
lemma reachable_TierInv (sq : ℚ → ℚ) (piV w h : ℚ) (s : GameState)
    (hs : Reachable sq piV w h s) : TierInv s := by
  induction hs with
  | init idx0 idx1 h0 h1 =>
    refine ⟨?_, ?_, show idx1 ≤ 10 by omega⟩
    · intro f hf
      simp [initState] at hf
    · intro b hb
      have : mkPendingFruit w h idx0 [] = b := by
        simpa [initState] using hb
      rw [← this, mkPendingFruit_typeIndex]
      omega
  | step s s2 hr ht ih =>
    exact trans_TierInv sq piV w h s s2 ht ih

/-- C10: in every state reachable through init, spawn, launch and frames,
every body in the active collection has a tier index between 0 and 10
(`fruitTypes.length - 1`): spawning only produces indices below 5, and a
merge fires only when the shared index is strictly below 10, producing
index + 1. -/
theorem C10_tier_invariant (sq : ℚ → ℚ) (piV w h : ℚ) (s : GameState)
    (hs : Reachable sq piV w h s) (f : GameFruit) (hf : f ∈ s.fruits) :
    f.typeIndex ≤ 10 :=
  (reachable_TierInv sq piV w h s hs).1 f hf

/-- Witness for C10: launch the initial pending cherry into the empty
400×400 arena (aim point `(200, 100)`, distance 250) and check the single
active body. -/
theorem C10_tier_invariant_witness :
    (launchBody (mkPendingFruit 400 400 0 []) 200 100 250).typeIndex ≤ 10 := by
  refine C10_tier_invariant (fun _ => 0) 3 400 400
    (mousedown (initState 400 400 0 1) 200 100 250).1
    (Reachable.step _ _ (Reachable.init 0 1 (by norm_num) (by norm_num))
      (Trans.launchT _ (mkPendingFruit 400 400 0 []) 200 100 250 rfl ?_
        (by norm_num)))
    (launchBody (mkPendingFruit 400 400 0 []) 200 100 250) ?_
  · norm_num [mkPendingFruit, placeFruitX, isOverlapping, fruitTypeAt,
      fruitTypes]
  · simp [mousedown, initState]

end SuikaPool
